import Mathlib

/-!
Shallow embedding of the `TitleProofAnchor` Algorand contract
(src/blockchain/algorand/contracts/title_proof.py) and proofs of the
anchor-log state-machine properties.

Modelling conventions:
* Byte strings (algopy `Bytes`, ARC4 address/byte arguments) are `List Nat`.
  A decoded ARC4 address is always exactly 32 bytes; theorems that depend on
  that ABI guarantee carry it as an explicit `length = 32` hypothesis.
* The three global-state slots become the fields of `ContractState`.
  An algopy `GlobalState` slot that was never written is `none`; reading
  `.value` of an unset slot aborts the call (modelled by `Err.AuthorityUnset`),
  while `.get(default=...)` substitutes the default, exactly as in the source.
* AVM `UInt64` arithmetic aborts on overflow, so the counter increment
  `total_anchors + 1` fails with `Err.Overflow` once it would reach `2 ^ 64`.
* Each ABI method is a pure function from its arguments and the pre-state to
  `Except Err result`; the transaction sender and the current round are
  explicit parameters.  `step` packages the methods into one transition
  function (a rejected call keeps the pre-state, as the AVM reverts), and
  `runCalls` folds a whole trace of calls.
-/

namespace TitleProof

/-- Byte strings, the model of algopy `Bytes` and of ARC4 address bytes. -/
abbrev Bytes := List Nat

/-- `2 ^ 64`, the bound of AVM `UInt64` arithmetic. -/
def U64_MOD : Nat := 18446744073709551616

/-- The three global-state slots of `TitleProofAnchor`.  `anchor_authority`
is `none` while the slot was never written (algopy `GlobalState(Bytes)` with
no default); `total_anchors` and `last_anchor_round` have default 0. -/
structure ContractState where
  anchor_authority : Option Bytes
  total_anchors : Nat
  last_anchor_round : Nat
deriving DecidableEq, Repr

/-- The state right after contract creation (`TitleProofAnchor.__init__`). -/
def initState : ContractState :=
  { anchor_authority := none, total_anchors := 0, last_anchor_round := 0 }

/-- Rejection kinds.  The first six match the assert messages of the source;
`AuthorityUnset` is the abort from reading `.value` of an unset global slot,
and `Overflow` is the AVM abort of `UInt64` addition overflow. -/
inductive Err
  | NotOwner
  | AlreadyInitialized
  | AuthorityUnset
  | Unauthorized
  | InvalidBlockRange
  | EmptyStateRoot
  | InvalidAuthority
  | Overflow
deriving DecidableEq, Repr

/-- The `initialize` ABI method (title_proof.py lines 49-65).  Asserts the
sender is the creator, then that `anchor_authority.get(default=b"")` is the
empty byte string, then stores the authority bytes. -/
def initAuthority (creator sender authority : Bytes) (s : ContractState) :
    Except Err ContractState :=
  if sender = creator then
    if s.anchor_authority.getD [] = [] then
      Except.ok { s with anchor_authority := some authority }
    else Except.error Err.AlreadyInitialized
  else Except.error Err.NotOwner

/-- The `anchor_state` ABI method (title_proof.py lines 67-120).  Reads
`anchor_authority.value` (aborting if unset), checks the sender, the block
range, and the non-emptiness of the state root, then increments
`total_anchors`, stamps `last_anchor_round` with the current round, and
returns the new counter value as the 1-indexed sequence number. -/
def anchor_state (sender : Bytes) (round : Nat)
    (state_code channel_id : String)
    (fabric_block_start fabric_block_end : Nat)
    (state_root : Bytes) (tx_count : Nat)
    (s : ContractState) : Except Err (Nat × ContractState) :=
  match s.anchor_authority with
  | none => Except.error Err.AuthorityUnset
  | some auth =>
    if sender = auth then
      if fabric_block_start ≤ fabric_block_end then
        if 0 < state_root.length then
          if s.total_anchors + 1 < U64_MOD then
            Except.ok (s.total_anchors + 1,
              { s with total_anchors := s.total_anchors + 1,
                       last_anchor_round := round })
          else Except.error Err.Overflow
        else Except.error Err.EmptyStateRoot
      else Except.error Err.InvalidBlockRange
    else Except.error Err.Unauthorized

/-- The read-only `get_anchor_count` ABI method (title_proof.py 122-133). -/
def get_anchor_count (s : ContractState) : Nat :=
  s.total_anchors

/-- The `rotate_authority` ABI method (title_proof.py lines 135-153).  Reads
`anchor_authority.value` (aborting if unset), checks the sender, checks the
new authority bytes differ from the empty byte string, then stores them. -/
def rotate_authority (sender new_authority : Bytes) (s : ContractState) :
    Except Err ContractState :=
  match s.anchor_authority with
  | none => Except.error Err.AuthorityUnset
  | some auth =>
    if sender = auth then
      if new_authority = [] then Except.error Err.InvalidAuthority
      else Except.ok { s with anchor_authority := some new_authority }
    else Except.error Err.Unauthorized

/-- One external application call, with its sender and (for `anchor_state`)
the host-ledger round at which it executes. -/
inductive Call
  | initAuthority (sender authority : Bytes)
  | anchorState (sender : Bytes) (round : Nat) (state_code channel_id : String)
      (fabric_block_start fabric_block_end : Nat) (state_root : Bytes)
      (tx_count : Nat)
  | getAnchorCount (sender : Bytes)
  | rotateAuthority (sender new_authority : Bytes)
deriving DecidableEq, Repr

/-- The observable outcome of one call. -/
inductive Result
  | unit
  | seqNo (n : Nat)
  | count (n : Nat)
  | failed (e : Err)
deriving DecidableEq, Repr

/-- One transition of the contract: dispatch the call to its method; a
rejected call yields `Result.failed` and keeps the pre-state (the AVM
reverts every write of an aborted call; here all aborts precede writes). -/
def step (creator : Bytes) (s : ContractState) : Call → Result × ContractState
  | Call.initAuthority sender authority =>
    match initAuthority creator sender authority s with
    | Except.ok s1 => (Result.unit, s1)
    | Except.error e => (Result.failed e, s)
  | Call.anchorState sender round sc ch bs be root tc =>
    match anchor_state sender round sc ch bs be root tc s with
    | Except.ok (n, s1) => (Result.seqNo n, s1)
    | Except.error e => (Result.failed e, s)
  | Call.getAnchorCount _ => (Result.count (get_anchor_count s), s)
  | Call.rotateAuthority sender na =>
    match rotate_authority sender na s with
    | Except.ok s1 => (Result.unit, s1)
    | Except.error e => (Result.failed e, s)

/-- Run a trace of calls, collecting the result of each. -/
def runCalls (creator : Bytes) (s : ContractState) :
    List Call → List Result × ContractState
  | [] => ([], s)
  | c :: cs =>
    let p := step creator s c
    let q := runCalls creator p.2 cs
    (p.1 :: q.1, q.2)

/-- The sequence numbers returned by the successful `anchor_state` calls of a
trace, in order. -/
def anchorSeqNos (rs : List Result) : List Nat :=
  rs.filterMap fun r =>
    match r with
    | Result.seqNo n => some n
    | _ => none

/-- Success characterization of `initAuthority`: it succeeds exactly when the
sender is the creator and the authority slot still reads as empty bytes, and
then its only effect is storing the authority. -/
theorem initAuthority_ok_iff (creator sender authority : Bytes)
    (s : ContractState) :
    initAuthority creator sender authority s =
        Except.ok { s with anchor_authority := some authority } ↔
      sender = creator ∧ s.anchor_authority.getD [] = [] := by
  unfold initAuthority
  constructor
  · intro h
    split at h
    · split at h
      · exact ⟨by assumption, by assumption⟩
      · exact absurd h (by simp)
    · exact absurd h (by simp)
  · rintro ⟨h1, h2⟩
    simp [h1, h2]

/-- Any successful `initAuthority` stores exactly the given authority. -/
theorem initAuthority_ok (creator sender authority : Bytes)
    (s s1 : ContractState)
    (h : initAuthority creator sender authority s = Except.ok s1) :
    s1 = { s with anchor_authority := some authority } ∧
      sender = creator ∧ s.anchor_authority.getD [] = [] := by
  unfold initAuthority at h
  split at h
  · split at h
    · exact ⟨by simpa using h.symm, by assumption, by assumption⟩
    · exact absurd h (by simp)
  · exact absurd h (by simp)

/-- Success characterization of `anchor_state`: any successful call returns
the incremented counter and performs exactly the counter and round updates. -/
theorem anchor_state_ok (sender : Bytes) (round : Nat) (sc ch : String)
    (bs be : Nat) (root : Bytes) (tc : Nat) (s : ContractState)
    (n : Nat) (s1 : ContractState)
    (h : anchor_state sender round sc ch bs be root tc s = Except.ok (n, s1)) :
    n = s.total_anchors + 1 ∧
      s1 = { s with total_anchors := s.total_anchors + 1,
                    last_anchor_round := round } ∧
      s.anchor_authority = some sender ∧ bs ≤ be ∧ root ≠ [] := by
  unfold anchor_state at h
  split at h
  · exact absurd h (by simp)
  · rename_i auth hauth
    split at h
    · split at h
      · split at h
        · split at h
          · refine ⟨?_, ?_, ?_, by assumption, ?_⟩
            · simpa using (congrArg (fun p => p.1) (Except.ok.inj h)).symm
            · simpa using (congrArg (fun p => p.2) (Except.ok.inj h)).symm
            · rename_i hs _ _ _
              rw [hauth, hs]
            · rename_i hroot _
              intro hnil
              simp [hnil] at hroot
          · exact absurd h (by simp)
        · exact absurd h (by simp)
      · exact absurd h (by simp)
    · exact absurd h (by simp)

/-- Success characterization of `rotate_authority`: any successful call was
made by the stored authority with non-empty new bytes, and its only effect
is replacing the authority. -/
theorem rotate_authority_ok (sender na : Bytes) (s s1 : ContractState)
    (h : rotate_authority sender na s = Except.ok s1) :
    s1 = { s with anchor_authority := some na } ∧
      s.anchor_authority = some sender ∧ na ≠ [] := by
  unfold rotate_authority at h
  split at h
  · exact absurd h (by simp)
  · rename_i auth hauth
    split at h
    · split at h
      · exact absurd h (by simp)
      · refine ⟨by simpa using h.symm, ?_, by assumption⟩
        rename_i hs _
        rw [hauth, hs]
    · exact absurd h (by simp)

/-- A rejected call keeps the state. -/
theorem step_failed_frame (creator : Bytes) (s : ContractState) (c : Call)
    (e : Err) (h : (step creator s c).1 = Result.failed e) :
    (step creator s c).2 = s := by
  cases c <;> simp only [step] at h ⊢ <;> split at h <;> simp_all

/-- Dispatch of an `initAuthority` call: either the method rejects and the
step fails in place, or it succeeds and the step returns its post-state. -/
theorem step_init_cases (creator : Bytes) (s : ContractState)
    (sender authority : Bytes) :
    (∃ e, initAuthority creator sender authority s = Except.error e ∧
      step creator s (Call.initAuthority sender authority)
        = (Result.failed e, s)) ∨
    (∃ s1, initAuthority creator sender authority s = Except.ok s1 ∧
      step creator s (Call.initAuthority sender authority)
        = (Result.unit, s1)) := by
  rcases h1 : initAuthority creator sender authority s with e | s1
  · exact Or.inl ⟨e, rfl, by simp [step, h1]⟩
  · exact Or.inr ⟨s1, rfl, by simp [step, h1]⟩

/-- Dispatch of an `anchorState` call. -/
theorem step_anchor_cases (creator : Bytes) (s : ContractState)
    (sender : Bytes) (round : Nat) (sc ch : String) (bs be : Nat)
    (root : Bytes) (tc : Nat) :
    (∃ e, anchor_state sender round sc ch bs be root tc s = Except.error e ∧
      step creator s (Call.anchorState sender round sc ch bs be root tc)
        = (Result.failed e, s)) ∨
    (∃ m s1, anchor_state sender round sc ch bs be root tc s
        = Except.ok (m, s1) ∧
      step creator s (Call.anchorState sender round sc ch bs be root tc)
        = (Result.seqNo m, s1)) := by
  rcases h1 : anchor_state sender round sc ch bs be root tc s with e | ⟨m, s1⟩
  · exact Or.inl ⟨e, rfl, by simp [step, h1]⟩
  · exact Or.inr ⟨m, s1, rfl, by simp [step, h1]⟩

/-- Dispatch of a `rotateAuthority` call. -/
theorem step_rotate_cases (creator : Bytes) (s : ContractState)
    (sender na : Bytes) :
    (∃ e, rotate_authority sender na s = Except.error e ∧
      step creator s (Call.rotateAuthority sender na)
        = (Result.failed e, s)) ∨
    (∃ s1, rotate_authority sender na s = Except.ok s1 ∧
      step creator s (Call.rotateAuthority sender na)
        = (Result.unit, s1)) := by
  rcases h1 : rotate_authority sender na s with e | s1
  · exact Or.inl ⟨e, rfl, by simp [step, h1]⟩
  · exact Or.inr ⟨s1, rfl, by simp [step, h1]⟩

/-- Counter behaviour of one step: a step returning `seqNo n` has
`n = total_anchors + 1` and increments the counter by one; every other step
leaves the counter and the round stamp unchanged. -/
theorem step_seqNo_total (creator : Bytes) (s : ContractState) (c : Call) :
    (∀ n, (step creator s c).1 = Result.seqNo n →
      n = s.total_anchors + 1 ∧
        (step creator s c).2.total_anchors = s.total_anchors + 1) ∧
    ((∀ n, (step creator s c).1 ≠ Result.seqNo n) →
      (step creator s c).2.total_anchors = s.total_anchors ∧
        (step creator s c).2.last_anchor_round = s.last_anchor_round) := by
  cases c with
  | initAuthority sender authority =>
    rcases step_init_cases creator s sender authority with
      ⟨e, h1, h2⟩ | ⟨s1, h1, h2⟩
    · exact ⟨fun n hn => by rw [h2] at hn; simp at hn,
        fun _ => by rw [h2]; exact ⟨rfl, rfl⟩⟩
    · refine ⟨fun n hn => by rw [h2] at hn; simp at hn, fun _ => ?_⟩
      rw [h2, (initAuthority_ok _ _ _ _ _ h1).1]
      exact ⟨rfl, rfl⟩
  | anchorState sender round sc ch bs be root tc =>
    rcases step_anchor_cases creator s sender round sc ch bs be root tc with
      ⟨e, h1, h2⟩ | ⟨m, s1, h1, h2⟩
    · exact ⟨fun n hn => by rw [h2] at hn; simp at hn,
        fun _ => by rw [h2]; exact ⟨rfl, rfl⟩⟩
    · obtain ⟨h3, h4, -⟩ := anchor_state_ok _ _ _ _ _ _ _ _ _ _ _ h1
      refine ⟨fun n hn => ?_, fun hno => ?_⟩
      · rw [h2] at hn
        simp only at hn
        cases hn
        rw [h2, h4]
        exact ⟨h3, rfl⟩
      · exact absurd (by rw [h2]) (hno m)
  | getAnchorCount sender =>
    exact ⟨fun n hn => by simp [step] at hn, fun _ => ⟨rfl, rfl⟩⟩
  | rotateAuthority sender na =>
    rcases step_rotate_cases creator s sender na with
      ⟨e, h1, h2⟩ | ⟨s1, h1, h2⟩
    · exact ⟨fun n hn => by rw [h2] at hn; simp at hn,
        fun _ => by rw [h2]; exact ⟨rfl, rfl⟩⟩
    · refine ⟨fun n hn => by rw [h2] at hn; simp at hn, fun _ => ?_⟩
      rw [h2, (rotate_authority_ok _ _ _ _ h1).1]
      exact ⟨rfl, rfl⟩

/-- The authority slot reads as a non-empty byte string. -/
def authSet (s : ContractState) : Prop := s.anchor_authority.getD [] ≠ []

/-- Once the authority slot reads as non-empty bytes it does so forever:
`initAuthority` then always rejects, `rotate_authority` only stores non-empty
bytes, and the other methods never touch the slot. -/
theorem step_preserves_authSet (creator : Bytes) (s : ContractState)
    (c : Call) (h : authSet s) : authSet (step creator s c).2 := by
  cases c with
  | initAuthority sender authority =>
    simp only [step]
    split
    · rename_i s1 h1
      exact absurd (initAuthority_ok _ _ _ _ _ h1).2.2 h
    · exact h
  | anchorState sender round sc ch bs be root tc =>
    simp only [step]
    split
    · rename_i p h1
      obtain ⟨-, h2, -⟩ := anchor_state_ok _ _ _ _ _ _ _ _ _ _ _ h1
      simpa [authSet, h2] using h
    · exact h
  | getAnchorCount sender => exact h
  | rotateAuthority sender na =>
    simp only [step]
    split
    · rename_i s1 h1
      obtain ⟨h2, -, h3⟩ := rotate_authority_ok _ _ _ _ h1
      simpa [authSet, h2] using h3
    · exact h

/-- A successful sequence-number result is kept by `anchorSeqNos`. -/
theorem anchorSeqNos_cons_seq (n : Nat) (rs : List Result) :
    anchorSeqNos (Result.seqNo n :: rs) = n :: anchorSeqNos rs := rfl

/-- Any non-`seqNo` result is dropped by `anchorSeqNos`. -/
theorem anchorSeqNos_cons_ne (r : Result) (rs : List Result)
    (h : ∀ n, r ≠ Result.seqNo n) :
    anchorSeqNos (r :: rs) = anchorSeqNos rs := by
  cases r with
  | seqNo n => exact absurd rfl (h n)
  | unit => rfl
  | count m => rfl
  | failed e => rfl

/-- Trace-level counter law: along any trace the successful `anchor_state`
calls return consecutive sequence numbers starting right after the initial
counter value, and the final counter is the initial counter plus their
number. -/
theorem runCalls_total_spec (creator : Bytes) (cs : List Call) :
    ∀ s : ContractState, ∃ k,
      anchorSeqNos (runCalls creator s cs).1 =
        List.range' (s.total_anchors + 1) k ∧
      (runCalls creator s cs).2.total_anchors = s.total_anchors + k := by
  induction cs with
  | nil => exact fun s => ⟨0, rfl, rfl⟩
  | cons c cs ih =>
    intro s
    obtain ⟨k, ih1, ih2⟩ := ih (step creator s c).2
    have h0 : (runCalls creator s (c :: cs)).1
        = (step creator s c).1 :: (runCalls creator (step creator s c).2 cs).1 :=
      rfl
    have h0b : (runCalls creator s (c :: cs)).2
        = (runCalls creator (step creator s c).2 cs).2 := rfl
    by_cases hseq : ∃ n, (step creator s c).1 = Result.seqNo n
    · obtain ⟨n, hp⟩ := hseq
      obtain ⟨hn, ht⟩ := (step_seqNo_total creator s c).1 n hp
      refine ⟨k + 1, ?_, ?_⟩
      · rw [h0, hp, anchorSeqNos_cons_seq, ih1, ht, hn, List.range'_succ]
      · rw [h0b, ih2, ht]
        omega
    · push_neg at hseq
      obtain ⟨ht, -⟩ := (step_seqNo_total creator s c).2 hseq
      refine ⟨k, ?_, ?_⟩
      · rw [h0, anchorSeqNos_cons_ne _ _ hseq, ih1, ht]
      · rw [h0b, ih2, ht]

/-- Claim C8: `get_anchor_count` returns the current value of
`total_anchors`, for every caller and in every state (initialized or not),
and the call mutates no state. -/
theorem get_anchor_count_spec (creator sender : Bytes) (s : ContractState) :
    step creator s (Call.getAnchorCount sender)
        = (Result.count s.total_anchors, s) ∧
    get_anchor_count s = s.total_anchors :=
  ⟨rfl, rfl⟩

/-- Claim C9: while the contract is uninitialized (the `anchor_authority`
slot is unset), every `anchor_state` and every `rotate_authority` call
fails for every caller — the authorization comparison against the unset
slot aborts — and leaves all state unchanged. -/
theorem uninitialized_calls_fail (creator : Bytes) (s : ContractState)
    (h : s.anchor_authority = none) :
    (∀ sender round sc ch bs be root tc,
      step creator s (Call.anchorState sender round sc ch bs be root tc)
        = (Result.failed Err.AuthorityUnset, s)) ∧
    (∀ sender na,
      step creator s (Call.rotateAuthority sender na)
        = (Result.failed Err.AuthorityUnset, s)) := by
  constructor
  · intro sender round sc ch bs be root tc
    simp [step, anchor_state, h]
  · intro sender na
    simp [step, rotate_authority, h]

/-- Witness for C9 at the freshly created state. -/
theorem uninitialized_calls_fail_witness :
    step [1] initState (Call.anchorState [2] 5 "UP" "ch" 1 2 [9] 1)
        = (Result.failed Err.AuthorityUnset, initState) ∧
    step [1] initState (Call.rotateAuthority [2] [3])
        = (Result.failed Err.AuthorityUnset, initState) :=
  ⟨(uninitialized_calls_fail [1] initState rfl).1 [2] 5 "UP" "ch" 1 2 [9] 1,
   (uninitialized_calls_fail [1] initState rfl).2 [2] [3]⟩

/-- Claim C6: every rejected call leaves the whole contract state identical
to its pre-call value, and a successful `anchor_state` applies exactly the
counter increment and round stamp, as one indivisible update of the state
record. -/
theorem rejected_calls_are_frame (creator : Bytes) (s : ContractState)
    (c : Call) :
    (∀ e, (step creator s c).1 = Result.failed e → (step creator s c).2 = s) ∧
    (∀ sender round sc ch bs be root tc n,
      c = Call.anchorState sender round sc ch bs be root tc →
      (step creator s c).1 = Result.seqNo n →
      n = s.total_anchors + 1 ∧
        (step creator s c).2
          = { s with total_anchors := s.total_anchors + 1,
                     last_anchor_round := round }) := by
  refine ⟨fun e he => step_failed_frame creator s c e he, ?_⟩
  rintro sender round sc ch bs be root tc n rfl hn
  rcases step_anchor_cases creator s sender round sc ch bs be root tc with
    ⟨e, h1, h2⟩ | ⟨m, s1, h1, h2⟩
  · rw [h2] at hn
    simp at hn
  · obtain ⟨h3, h4, -⟩ := anchor_state_ok _ _ _ _ _ _ _ _ _ _ _ h1
    rw [h2] at hn
    simp only at hn
    cases hn
    rw [h2, h4]
    exact ⟨h3, rfl⟩

/-- Witness for C6: a rejected call (unauthorized sender) keeps the state,
and a successful `anchor_state` performs exactly the two updates. -/
theorem rejected_calls_are_frame_witness :
    (step [1] { anchor_authority := some [2], total_anchors := 3,
                last_anchor_round := 4 }
        (Call.anchorState [5] 9 "UP" "ch" 1 2 [9] 1)).2
      = { anchor_authority := some [2], total_anchors := 3,
          last_anchor_round := 4 } ∧
    (1 = 0 + 1 ∧
      (step [1] { anchor_authority := some [2], total_anchors := 0,
                  last_anchor_round := 0 }
          (Call.anchorState [2] 9 "UP" "ch" 1 2 [9] 1)).2
        = { anchor_authority := some [2], total_anchors := 0 + 1,
            last_anchor_round := 9 }) :=
  ⟨(rejected_calls_are_frame [1]
      { anchor_authority := some [2], total_anchors := 3,
        last_anchor_round := 4 }
      (Call.anchorState [5] 9 "UP" "ch" 1 2 [9] 1)).1 Err.Unauthorized
      (by decide),
   (rejected_calls_are_frame [1]
      { anchor_authority := some [2], total_anchors := 0,
        last_anchor_round := 0 }
      (Call.anchorState [2] 9 "UP" "ch" 1 2 [9] 1)).2
      [2] 9 "UP" "ch" 1 2 [9] 1 1 rfl (by decide)⟩

/-- Claim C7: `total_anchors` starts at 0 and never decreases; a step
returning a sequence number increments it by exactly 1; every other step
(including all rejected calls) leaves both `total_anchors` and
`last_anchor_round` unchanged; and `anchorState` steps never modify
`anchor_authority`. -/
theorem total_anchors_monotone (creator : Bytes) (s : ContractState)
    (c : Call) :
    initState.total_anchors = 0 ∧
    s.total_anchors ≤ (step creator s c).2.total_anchors ∧
    (∀ n, (step creator s c).1 = Result.seqNo n →
      (step creator s c).2.total_anchors = s.total_anchors + 1) ∧
    ((∀ n, (step creator s c).1 ≠ Result.seqNo n) →
      (step creator s c).2.total_anchors = s.total_anchors ∧
        (step creator s c).2.last_anchor_round = s.last_anchor_round) ∧
    (∀ sender round sc ch bs be root tc,
      c = Call.anchorState sender round sc ch bs be root tc →
      (step creator s c).2.anchor_authority = s.anchor_authority) := by
  obtain ⟨hA, hB⟩ := step_seqNo_total creator s c
  refine ⟨rfl, ?_, fun n hn => (hA n hn).2, hB, ?_⟩
  · by_cases hseq : ∃ n, (step creator s c).1 = Result.seqNo n
    · obtain ⟨n, hp⟩ := hseq
      rw [(hA n hp).2]
      omega
    · push_neg at hseq
      rw [(hB hseq).1]
  · rintro sender round sc ch bs be root tc rfl
    rcases step_anchor_cases creator s sender round sc ch bs be root tc with
      ⟨e, h1, h2⟩ | ⟨m, s1, h1, h2⟩
    · rw [h2]
    · obtain ⟨-, h4, -⟩ := anchor_state_ok _ _ _ _ _ _ _ _ _ _ _ h1
      rw [h2, h4]

/-- Witness for C7 at concrete states and calls. -/
theorem total_anchors_monotone_witness :
    initState.total_anchors = 0 ∧
    (step [1] { anchor_authority := some [2], total_anchors := 3,
                last_anchor_round := 4 }
        (Call.anchorState [2] 9 "UP" "ch" 1 2 [9] 1)).2.anchor_authority
      = some [2] :=
  ⟨(total_anchors_monotone [1] initState (Call.getAnchorCount [2])).1,
   (total_anchors_monotone [1]
      { anchor_authority := some [2], total_anchors := 3,
        last_anchor_round := 4 }
      (Call.anchorState [2] 9 "UP" "ch" 1 2 [9] 1)).2.2.2.2
      [2] 9 "UP" "ch" 1 2 [9] 1 rfl⟩

/-- Claim C3: on an initialized contract, `anchor_state` rejects any sender
other than the current authority with `Unauthorized` whatever the request
holds; a call by the authority fails with `InvalidBlockRange` exactly when
`fabric_block_end < fabric_block_start`, otherwise fails with
`EmptyStateRoot` exactly when the state root is empty, and otherwise
succeeds (up to the machine-width bound on the counter). -/
theorem anchor_state_check_order (auth sender : Bytes) (round : Nat)
    (sc ch : String) (bs be : Nat) (root : Bytes) (tc : Nat)
    (s : ContractState) (hauth : s.anchor_authority = some auth)
    (hof : s.total_anchors + 1 < U64_MOD) :
    (sender ≠ auth →
      anchor_state sender round sc ch bs be root tc s
        = Except.error Err.Unauthorized) ∧
    (sender = auth →
      ((anchor_state sender round sc ch bs be root tc s
          = Except.error Err.InvalidBlockRange) ↔ be < bs) ∧
      (bs ≤ be →
        ((anchor_state sender round sc ch bs be root tc s
            = Except.error Err.EmptyStateRoot) ↔ root = [])) ∧
      (bs ≤ be → root ≠ [] →
        anchor_state sender round sc ch bs be root tc s
          = Except.ok (s.total_anchors + 1,
              { s with total_anchors := s.total_anchors + 1,
                       last_anchor_round := round }))) := by
  constructor
  · intro hne
    simp [anchor_state, hauth, hne]
  · intro heq
    refine ⟨?_, ?_, ?_⟩
    · by_cases hbe : bs ≤ be
      · by_cases hroot : root = []
        · simp [anchor_state, hauth, heq, hbe, hroot]
        · have hlen : 0 < root.length := List.length_pos.mpr hroot
          simp [anchor_state, hauth, heq, hbe, hlen, hof]
      · simp [anchor_state, hauth, heq, hbe]
        omega
    · intro hbe
      by_cases hroot : root = []
      · simp [anchor_state, hauth, heq, hbe, hroot]
      · have hlen : 0 < root.length := List.length_pos.mpr hroot
        simp [anchor_state, hauth, heq, hbe, hlen, hof, hroot]
    · intro hbe hroot
      have hlen : 0 < root.length := List.length_pos.mpr hroot
      simp [anchor_state, hauth, heq, hbe, hlen, hof]

/-- Witness for C3: the success branch at a concrete request. -/
theorem anchor_state_check_order_witness :
    anchor_state [2] 5 "UP" "ch" 1 2 [9] 1
        { anchor_authority := some [2], total_anchors := 0,
          last_anchor_round := 0 }
      = Except.ok (1, { anchor_authority := some [2], total_anchors := 1,
                        last_anchor_round := 5 }) :=
  ((anchor_state_check_order [2] [2] 5 "UP" "ch" 1 2 [9] 1
      { anchor_authority := some [2], total_anchors := 0,
        last_anchor_round := 0 }
      rfl (by decide)).2 rfl).2.2 (by decide) (by decide)

/-- Claim C10: an `anchor_state` call by the current authority with a
single-block batch (`fabric_block_start = fabric_block_end`) and
`tx_count = 0` succeeds exactly when the state root is non-empty, and in
general validation accepts every argument combination except
`end < start` and an empty root (up to the machine-width counter bound). -/
theorem single_block_zero_tx_accepted (auth : Bytes) (s : ContractState)
    (round : Nat) (sc ch : String) (root : Bytes) (b bs be tc : Nat)
    (hauth : s.anchor_authority = some auth)
    (hof : s.total_anchors + 1 < U64_MOD) :
    ((∃ n s1, anchor_state auth round sc ch b b root 0 s
        = Except.ok (n, s1)) ↔ root ≠ []) ∧
    ((∃ n s1, anchor_state auth round sc ch bs be root tc s
        = Except.ok (n, s1)) ↔ bs ≤ be ∧ root ≠ []) := by
  have hgen : ∀ bs2 be2 tc2,
      (∃ n s1, anchor_state auth round sc ch bs2 be2 root tc2 s
          = Except.ok (n, s1)) ↔ bs2 ≤ be2 ∧ root ≠ [] := by
    intro bs2 be2 tc2
    constructor
    · rintro ⟨n, s1, h⟩
      obtain ⟨-, -, -, h4, h5⟩ := anchor_state_ok _ _ _ _ _ _ _ _ _ _ _ h
      exact ⟨h4, h5⟩
    · rintro ⟨hbe, hroot⟩
      have hlen : 0 < root.length := List.length_pos.mpr hroot
      exact ⟨s.total_anchors + 1,
        { s with total_anchors := s.total_anchors + 1,
                 last_anchor_round := round },
        by simp [anchor_state, hauth, hbe, hlen, hof]⟩
  refine ⟨?_, hgen bs be tc⟩
  rw [hgen b b 0]
  simp

/-- Witness for C10: a single-block, zero-transaction anchor succeeds. -/
theorem single_block_zero_tx_accepted_witness :
    ∃ n s1, anchor_state [2] 5 "UP" "ch" 7 7 [9] 0
        { anchor_authority := some [2], total_anchors := 0,
          last_anchor_round := 0 }
      = Except.ok (n, s1) :=
  ((single_block_zero_tx_accepted [2]
      { anchor_authority := some [2], total_anchors := 0,
        last_anchor_round := 0 }
      5 "UP" "ch" [9] 7 1 2 0 rfl (by decide)).1).mpr (by decide)

/-- Claim C4: immediately after a successful rotation from authority A to a
different authority B, the same `anchor_state` request fails with
`Unauthorized` when sent by A and succeeds when sent by B, returning the
next global sequence number — rotation does not touch the anchor counter. -/
theorem rotation_takes_effect_immediately (A B : Bytes) (s : ContractState)
    (round : Nat) (sc ch : String) (bs be : Nat) (root : Bytes) (tc : Nat)
    (hauth : s.anchor_authority = some A) (hAB : B ≠ A) (hB : B ≠ [])
    (hbe : bs ≤ be) (hroot : root ≠ [])
    (hof : s.total_anchors + 1 < U64_MOD) :
    ∃ s1, rotate_authority A B s = Except.ok s1 ∧
      anchor_state A round sc ch bs be root tc s1
        = Except.error Err.Unauthorized ∧
      anchor_state B round sc ch bs be root tc s1
        = Except.ok (s.total_anchors + 1,
            { s1 with total_anchors := s.total_anchors + 1,
                      last_anchor_round := round }) := by
  have hBA : A ≠ B := fun h => hAB h.symm
  have hlen : 0 < root.length := List.length_pos.mpr hroot
  refine ⟨{ s with anchor_authority := some B }, ?_, ?_, ?_⟩
  · simp [rotate_authority, hauth, hB]
  · simp [anchor_state, hBA]
  · simp [anchor_state, hbe, hlen, hof]

/-- Witness for C4 at concrete identities and a concrete request. -/
theorem rotation_takes_effect_immediately_witness :
    ∃ s1, rotate_authority [2] [3]
        { anchor_authority := some [2], total_anchors := 4,
          last_anchor_round := 9 }
      = Except.ok s1 ∧
      anchor_state [2] 11 "UP" "ch" 5 6 [7] 2 s1
        = Except.error Err.Unauthorized ∧
      anchor_state [3] 11 "UP" "ch" 5 6 [7] 2 s1
        = Except.ok (5, { s1 with total_anchors := 5,
                                  last_anchor_round := 11 }) :=
  rotation_takes_effect_immediately [2] [3]
    { anchor_authority := some [2], total_anchors := 4,
      last_anchor_round := 9 }
    11 "UP" "ch" 5 6 [7] 2 rfl (by decide) (by decide) (by decide)
    (by decide) (by decide)

/-- Once the authority slot reads as non-empty bytes, it still does after
any further trace of calls. -/
theorem runCalls_preserves_authSet (creator : Bytes) (cs : List Call) :
    ∀ s, authSet s → authSet (runCalls creator s cs).2 := by
  induction cs with
  | nil => exact fun s h => h
  | cons c cs ih =>
    exact fun s h => ih (step creator s c).2 (step_preserves_authSet creator s c h)

/-- Claim C2 counterexample: after a successful initialization, a subsequent
`initialize` call from a NON-creator caller fails with `NotOwner`, not with
`AlreadyInitialized`: the creator check of the source runs first. -/
theorem subsequent_init_by_noncreator_notowner :
    initAuthority [1] [1] (List.replicate 32 2) initState
        = Except.ok { anchor_authority := some (List.replicate 32 2),
                      total_anchors := 0, last_anchor_round := 0 } ∧
    initAuthority [1] [2] (List.replicate 32 3)
        { anchor_authority := some (List.replicate 32 2),
          total_anchors := 0, last_anchor_round := 0 }
        = Except.error Err.NotOwner ∧
    Err.NotOwner ≠ Err.AlreadyInitialized :=
  ⟨rfl, rfl, by decide⟩

/-- Claim C2 (amended): `initialize` succeeds exactly when the caller is the
creator and the authority slot still reads as empty; once a call with a
well-formed 32-byte authority has succeeded, every subsequent `initialize`
call fails regardless of argument, after any further sequence of calls —
with `AlreadyInitialized` when the caller is the creator and `NotOwner`
otherwise. -/
theorem initialize_at_most_once (creator sender a : Bytes)
    (s : ContractState) (hlen : a.length = 32) :
    ((∃ s1, initAuthority creator sender a s = Except.ok s1) ↔
      sender = creator ∧ s.anchor_authority.getD [] = []) ∧
    (∀ s1, initAuthority creator sender a s = Except.ok s1 →
      ∀ cs sender2 a2,
        step creator (runCalls creator s1 cs).2 (Call.initAuthority sender2 a2)
          = (Result.failed (if sender2 = creator then Err.AlreadyInitialized
              else Err.NotOwner),
             (runCalls creator s1 cs).2)) := by
  constructor
  · constructor
    · rintro ⟨s1, h⟩
      exact (initAuthority_ok _ _ _ _ _ h).2
    · rintro ⟨h1, h2⟩
      exact ⟨_, (initAuthority_ok_iff _ _ _ _).mpr ⟨h1, h2⟩⟩
  · intro s1 h cs sender2 a2
    obtain ⟨h3, -, -⟩ := initAuthority_ok _ _ _ _ _ h
    have hne : a ≠ [] := by
      intro hnil
      rw [hnil] at hlen
      simp at hlen
    have hset : authSet s1 := by
      rw [h3]
      simpa [authSet] using hne
    have hset2 : (runCalls creator s1 cs).2.anchor_authority.getD [] ≠ [] :=
      runCalls_preserves_authSet creator cs s1 hset
    by_cases hs2 : sender2 = creator
    · simp [step, initAuthority, hs2, hset2]
    · simp [step, initAuthority, hs2]

/-- Witness for C2 (amended): a later `initialize` by the creator fails with
`AlreadyInitialized`. -/
theorem initialize_at_most_once_witness :
    step [1] (runCalls [1]
        { anchor_authority := some (List.replicate 32 2),
          total_anchors := 0, last_anchor_round := 0 } []).2
      (Call.initAuthority [1] [3])
      = (Result.failed (if ([1] : Bytes) = [1] then Err.AlreadyInitialized
          else Err.NotOwner),
         (runCalls [1]
            { anchor_authority := some (List.replicate 32 2),
              total_anchors := 0, last_anchor_round := 0 } []).2) :=
  (initialize_at_most_once [1] [1] (List.replicate 32 2) initState
      (by decide)).2
    { anchor_authority := some (List.replicate 32 2),
      total_anchors := 0, last_anchor_round := 0 }
    rfl [] [1] [3]

/-- Claim C1: starting from the fresh contract, after any sequence of calls
`total_anchors` equals the number of successful `anchor_state` calls, the
i-th successful `anchor_state` call returns exactly i (the returned numbers
read 1, 2, 3, ...), and each successful `anchor_state` step stamps
`last_anchor_round` with the round at which it executed. -/
theorem anchor_sequence_numbers (creator : Bytes) (cs : List Call) :
    (runCalls creator initState cs).2.total_anchors
        = (anchorSeqNos (runCalls creator initState cs).1).length ∧
    anchorSeqNos (runCalls creator initState cs).1
        = List.range' 1 (anchorSeqNos (runCalls creator initState cs).1).length ∧
    (∀ i, i < (anchorSeqNos (runCalls creator initState cs).1).length →
      (anchorSeqNos (runCalls creator initState cs).1).getD i 0 = i + 1) ∧
    (∀ (s : ContractState) (sender : Bytes) (round : Nat) (sc ch : String)
        (bs be : Nat) (root : Bytes) (tc : Nat) (n : Nat),
      (step creator s (Call.anchorState sender round sc ch bs be root tc)).1
          = Result.seqNo n →
      (step creator s
          (Call.anchorState sender round sc ch bs be root tc)).2.last_anchor_round
        = round) := by
  obtain ⟨k, h1, h2⟩ := runCalls_total_spec creator cs initState
  have hk : (anchorSeqNos (runCalls creator initState cs).1).length = k := by
    rw [h1, List.length_range']
  have hzero : initState.total_anchors = 0 := rfl
  refine ⟨?_, ?_, ?_, ?_⟩
  · rw [h2, hk, hzero]
    exact Nat.zero_add k
  · rw [hk, h1, hzero]
  · intro i hi
    rw [hk] at hi
    have hlt : i < (List.range' (initState.total_anchors + 1) k).length := by
      rw [List.length_range']
      exact hi
    rw [h1, List.getD_eq_getElem _ _ hlt, List.getElem_range'_1]
    simp [initState]
    omega
  · intro s sender round sc ch bs be root tc n hn
    rcases step_anchor_cases creator s sender round sc ch bs be root tc with
      ⟨e, g1, g2⟩ | ⟨m, s1, g1, g2⟩
    · rw [g2] at hn
      simp at hn
    · obtain ⟨-, h4, -⟩ := anchor_state_ok _ _ _ _ _ _ _ _ _ _ _ g1
      rw [g2, h4]

/-- Witness for C1 on the two-anchor scenario of the specification. -/
theorem anchor_sequence_numbers_witness :
    (runCalls [1] initState
        [Call.initAuthority [1] [2],
         Call.anchorState [2] 7 "UP" "c1" 1 50 [1] 10,
         Call.anchorState [2] 8 "UP" "c1" 51 100 [2] 5]).2.total_anchors
      = (anchorSeqNos (runCalls [1] initState
          [Call.initAuthority [1] [2],
           Call.anchorState [2] 7 "UP" "c1" 1 50 [1] 10,
           Call.anchorState [2] 8 "UP" "c1" 51 100 [2] 5]).1).length ∧
    (step [1] { anchor_authority := some [2], total_anchors := 0,
                last_anchor_round := 0 }
        (Call.anchorState [2] 7 "UP" "c1" 1 50 [1] 10)).2.last_anchor_round
      = 7 :=
  ⟨(anchor_sequence_numbers [1]
      [Call.initAuthority [1] [2],
       Call.anchorState [2] 7 "UP" "c1" 1 50 [1] 10,
       Call.anchorState [2] 8 "UP" "c1" 51 100 [2] 5]).1,
   (anchor_sequence_numbers [1] []).2.2.2
      { anchor_authority := some [2], total_anchors := 0,
        last_anchor_round := 0 }
      [2] 7 "UP" "c1" 1 50 [1] 10 1 (by decide)⟩

/-- Claim C5 (code divergence): the new-authority guard of
`rotate_authority` compares against the EMPTY byte string, which a decoded
32-byte ARC4 address can never be; in particular the all-zero 32-byte
address — the zero address the method docstring promises to reject — is
accepted and stored as the new `anchor_authority`. -/
theorem rotate_zero_address_accepted :
    (List.replicate 32 0).length = 32 ∧
    List.replicate 32 0 ≠ ([] : Bytes) ∧
    rotate_authority (List.replicate 32 1) (List.replicate 32 0)
        { anchor_authority := some (List.replicate 32 1),
          total_anchors := 0, last_anchor_round := 0 }
      = Except.ok { anchor_authority := some (List.replicate 32 0),
                    total_anchors := 0, last_anchor_round := 0 } :=
  ⟨by decide, by decide, rfl⟩

end TitleProof
